import Mathlib

namespace Triviality

/-!
Shallow embedding of the `triviality` crate (`src/main.rs`), a tool that
classifies extracted crates as trivial or non-trivial.  Syntax trees produced
by the external tree-sitter parser are modelled abstractly as `Node` values
exposing exactly the interface the program consumes (kind tags, source text,
field lookup, child lists); the filesystem is modelled as a predicate on
paths; manifest records mirror the `Manifest` / `Package` / `Lib` / `Bin`
structs, with `semver::Version` modelled structurally.
-/

/-- Model of a tree-sitter concrete syntax tree node as consumed by the
program: a `kind` tag, the node's source text (what `utf8_text` returns for
its byte range), the children reachable through a named field role (what
`children_by_field_name` iterates), and the plain ordered child list. -/
inductive Node : Type where
  | mk : String → String → List (String × Node) → List Node → Node

/-- The node's grammar kind tag (`node.kind()`). -/
def Node.kind : Node → String
  | .mk k _ _ _ => k

/-- The node's source text (`node.utf8_text(&content)`). -/
def Node.text : Node → String
  | .mk _ t _ _ => t

/-- The node's children indexed by field role. -/
def Node.fieldChildren : Node → List (String × Node)
  | .mk _ _ f _ => f

/-- The node's ordered children (`node.children(&mut cursor)`). -/
def Node.children : Node → List Node
  | .mk _ _ _ c => c

/-- `node.children_by_field_name(role, &mut cursor)` as a list. -/
def childrenByFieldName (n : Node) (role : String) : List Node :=
  (n.fieldChildren.filter (fun p => p.fst == role)).map Prod.snd

/-- `child.children_by_field_name("name", &mut cursor).next()`. -/
def fnNameNode (f : Node) : Option Node := (childrenByFieldName f "name").head?

/-- `child.children_by_field_name("body", &mut cursor).next()`. -/
def fnBodyNode (f : Node) : Option Node := (childrenByFieldName f "body").head?

/-- `body.chars().filter(|c| *c == '\n').count()`. -/
def newlineCount (s : String) : Nat :=
  (s.data.filter (fun c => c == '\n')).length

/-- Rust `str::contains(pat)`: literal substring containment. -/
def containsSubstr (s pat : String) : Bool := decide (pat.data <:+: s.data)

/-- The loop body of `is_bin_non_trivial` over the top-level `function_item`
children: a function whose name is not `main` makes the file non-trivial at
once; a `main` whose body text has more than 2 newlines, or does not contain
the literal substring `println!`, makes it non-trivial; a missing name or
body field is an error; otherwise the loop continues. -/
def binLoop : List Node → Except String Bool
  | [] => .ok false
  | f :: fs =>
    match fnNameNode f with
    | none => .error "function item does not have a name"
    | some nm =>
      if nm.text ≠ "main" then .ok true
      else
        match fnBodyNode f with
        | none => .error "function item does not have a body"
        | some b =>
          if newlineCount b.text > 2 then .ok true
          else if !containsSubstr b.text "println!" then .ok true
          else binLoop fs

/-- The top-level `function_item` children of the root node, in order
(`root.children(..).filter(|node| node.kind() == "function_item")`). -/
def topFns (root : Node) : List Node :=
  root.children.filter (fun n => n.kind == "function_item")

/-- `is_bin_non_trivial`, applied to the already-parsed syntax tree (file
reading and parsing, which only add I/O and parse-failure error cases, are
handled outside this function in the model). -/
def is_bin_non_trivial (root : Node) : Except String Bool :=
  binLoop (topFns root)

/-- The item kinds inspected by `is_lib_non_trivial`. -/
def libKinds : List String :=
  ["function_item", "const_item", "enum_item", "foreign_mod_item",
   "mod_item", "struct_item", "static_item", "trait_item", "type_item",
   "use_declaration"]

/-- `child.children(..).find(|node| node.kind() == "visibility_modifier")`. -/
def visFirst (item : Node) : Option Node :=
  item.children.find? (fun c => c.kind == "visibility_modifier")

/-- The per-item test of `is_lib_non_trivial`: the first visibility-modifier
child, if any, has text exactly `pub`. -/
def hasPubVis (item : Node) : Bool :=
  match visFirst item with
  | some v => v.text == "pub"
  | none => false

/-- `is_lib_non_trivial`, applied to the already-parsed syntax tree: some
direct child of the root whose kind is one of `libKinds` has a
visibility-modifier child whose text is exactly `pub`. -/
def is_lib_non_trivial (root : Node) : Bool :=
  (root.children.filter (fun n => libKinds.contains n.kind)).any hasPubVis

/-- A semver identifier: a numeric or an alphanumeric dot-separated
component of a pre-release or build-metadata suffix (numeric pre-release
identifiers may not carry leading zeroes, so they are modelled as `Nat`). -/
inductive SemverId : Type where
  | num : Nat → SemverId
  | alpha : String → SemverId
deriving DecidableEq

/-- Model of `semver::Version`: major/minor/patch numbers plus pre-release
and build-metadata identifier lists.  Equality is structural, as for the
`semver` crate's derived `Eq`. -/
structure Version : Type where
  major : Nat
  minor : Nat
  patch : Nat
  pre : List SemverId
  build : List SemverId
deriving DecidableEq

/-- `[package]` table: the two required fields.  Derived equality and
ordering are structural / lexicographic in field order, as in Rust. -/
structure Package : Type where
  name : String
  version : Version
deriving DecidableEq

/-- `[lib]` table: an optional path override. -/
structure Lib : Type where
  path : Option String
deriving DecidableEq

/-- One `[[bin]]` entry: an optional path. -/
structure Bin : Type where
  path : Option String
deriving DecidableEq

/-- The `Manifest` struct.  Its derived `PartialEq` is full structural
equality over every field, modelled by `=` on this structure. -/
structure Manifest : Type where
  package : Package
  lib : Option Lib
  bins : Option (List Bin)
deriving DecidableEq

/-- The `Root` struct: a root directory plus the manifest found there. -/
structure Root : Type where
  root : String
  manifest : Manifest
deriving DecidableEq

/-- Rust's `Ord::cmp` on `u64`, written as an explicit trichotomy. -/
def natCmp (a b : Nat) : Ordering :=
  if a = b then .eq else if a < b then .lt else .gt

/-- Rust's `Ord::cmp` on `String` (lexicographic; on strings the Lean
character order coincides with Rust's byte order because UTF-8 preserves
code-point order). -/
def strCmp (a b : String) : Ordering :=
  if a = b then .eq else if a < b then .lt else .gt

/-- Comparison of single semver identifiers: numeric identifiers compare
numerically and sort before alphanumeric ones, which compare lexically. -/
def idCmp : SemverId → SemverId → Ordering
  | .num a, .num b => natCmp a b
  | .num _, .alpha _ => .lt
  | .alpha _, .num _ => .gt
  | .alpha a, .alpha b => strCmp a b

/-- Lexicographic comparison of identifier lists; a strict prefix sorts
first. -/
def listIdCmp : List SemverId → List SemverId → Ordering
  | [], [] => .eq
  | [], _ :: _ => .lt
  | _ :: _, [] => .gt
  | a :: as, b :: bs =>
    match idCmp a b with
    | .eq => listIdCmp as bs
    | o => o

/-- Pre-release precedence: an empty pre-release (a release) sorts after any
non-empty one, per the semantic-versioning rules the `semver` crate
implements. -/
def preCmp (a b : List SemverId) : Ordering :=
  match a, b with
  | [], [] => .eq
  | [], _ :: _ => .gt
  | _ :: _, [] => .lt
  | a, b => listIdCmp a b

/-- Build-metadata comparison for the total order on versions: empty build
metadata sorts first. -/
def buildCmp (a b : List SemverId) : Ordering :=
  match a, b with
  | [], [] => .eq
  | [], _ :: _ => .lt
  | _ :: _, [] => .gt
  | a, b => listIdCmp a b

/-- `Ord::cmp` on `semver::Version`: major, minor, patch, pre-release
precedence, then build metadata. -/
def Version.cmp (a b : Version) : Ordering :=
  match natCmp a.major b.major with
  | .eq =>
    match natCmp a.minor b.minor with
    | .eq =>
      match natCmp a.patch b.patch with
      | .eq =>
        match preCmp a.pre b.pre with
        | .eq => buildCmp a.build b.build
        | o => o
      | o => o
    | o => o
  | o => o

/-- Derived `Ord` on `Package`: lexicographic by `(name, version)`. -/
def Package.cmp (a b : Package) : Ordering :=
  match strCmp a.name b.name with
  | .eq => Version.cmp a.version b.version
  | o => o

/-- `impl Ord for Manifest`: compares only the `package` field (name and
version), not `lib` or `bins`. -/
def Manifest.cmp (a b : Manifest) : Ordering :=
  Package.cmp a.package b.package

/-- `impl Ord for Root`: delegates to the manifest comparison. -/
def Root.cmp (a b : Root) : Ordering :=
  Manifest.cmp a.manifest b.manifest

/-- `BTreeSet<Root>::insert`, on the sorted-list model of a `BTreeSet`: the
element is placed at its ordered position; when an element comparing equal
(under `Root.cmp`) is already present, the set is left unchanged (the
existing element is kept). -/
def btreeInsert (x : Root) : List Root → List Root
  | [] => [x]
  | y :: ys =>
    match Root.cmp x y with
    | .lt => x :: y :: ys
    | .eq => y :: ys
    | .gt => y :: btreeInsert x ys

/-- `acc.entry(root.manifest.package.name.clone()).or_default().insert(root)`
on the association-list model of the `HashMap<String, BTreeSet<Root>>`. -/
def indexInsert : List (String × List Root) → Root → List (String × List Root)
  | [], r => [(r.manifest.package.name, btreeInsert r [])]
  | (k, g) :: rest, r =>
    if k = r.manifest.package.name then (k, btreeInsert r g) :: rest
    else (k, g) :: indexInsert rest r

/-- The accumulation of discovered roots into the scan index (the closure
folded by `fold_ok` in `main`). -/
def buildIndex (roots : List Root) : List (String × List Root) :=
  roots.foldl indexInsert []

/-- Lookup of a package name's group in the scan-index model. -/
def indexLookup (idx : List (String × List Root)) (k : String) :
    Option (List Root) :=
  (idx.find? (fun p => p.fst == k)).map Prod.snd

/-- `Itertools::fold_ok` over the discovery stream: candidates that loaded
successfully are folded into the index; the first error short-circuits and
is returned as the overall result. -/
def fold_ok (acc : List (String × List Root)) :
    List (Except String Root) → Except String (List (String × List Root))
  | [] => .ok acc
  | .error e :: _ => .error e
  | .ok r :: rest => fold_ok (indexInsert acc r) rest

/-- The discovery phase of `main` for one scan path, starting from the
stream of per-candidate manifest-load results (each candidate either
yields a `Root` or a manifest-load / I/O error). -/
def discover (entries : List (Except String Root)) :
    Except String (List (String × List Root)) :=
  fold_ok [] entries

/-- Path join, modelling `PathBuf::join` on the relative paths found in
manifests. -/
def pathJoin (a b : String) : String := a ++ "/" ++ b

/-- The conventional fallback binary `src/main.rs`, present only when the
file exists (`Root::bins`, default arm).  The filesystem is modelled as the
predicate `fs` on paths. -/
def defaultBins (fs : String → Bool) (r : Root) : List String :=
  let d := pathJoin (pathJoin r.root "src") "main.rs"
  if fs d then [d] else []

/-- `Root::bins`: a declared non-empty `bins` list is resolved by joining
each entry that has a path (entries without a path are skipped, and no
existence check is made); otherwise the conventional `src/main.rs` is used
if it exists. -/
def Root.bins (fs : String → Bool) (r : Root) : List String :=
  match r.manifest.bins with
  | some bs =>
    if bs.isEmpty then defaultBins fs r
    else bs.filterMap (fun b => b.path.map (pathJoin r.root))
  | none => defaultBins fs r

/-- The conventional fallback library `src/lib.rs`, present only when the
file exists. -/
def defaultLib (fs : String → Bool) (r : Root) : Option String :=
  let d := pathJoin (pathJoin r.root "src") "lib.rs"
  if fs d then some d else none

/-- `Root::lib`: a declared library path that exists on disk wins;
otherwise the conventional `src/lib.rs` is used if it exists. -/
def Root.lib (fs : String → Bool) (r : Root) : Option String :=
  match r.manifest.lib with
  | some l =>
    match l.path with
    | some p => if fs (pathJoin r.root p) then some (pathJoin r.root p) else defaultLib fs r
    | none => defaultLib fs r
  | none => defaultLib fs r

/-- The binary loop of `Root::has_non_trivial_code`: each resolved binary is
checked in order and the first non-trivial one (or the first error)
short-circuits. -/
def checkBins (binCheck : String → Except String Bool) :
    List String → Except String Bool
  | [] => .ok false
  | p :: ps =>
    match binCheck p with
    | .error e => .error e
    | .ok true => .ok true
    | .ok false => checkBins binCheck ps

/-- `Root::has_non_trivial_code`, parameterised by the filesystem and by the
two per-file classifiers (which, in the program, read and parse the file at
the given path): binaries are checked first; only if all are trivial is the
library entry point (if any) checked. -/
def has_non_trivial_code (fs : String → Bool)
    (binCheck libCheck : String → Except String Bool) (r : Root) :
    Except String Bool :=
  match checkBins binCheck (Root.bins fs r) with
  | .error e => .error e
  | .ok true => .ok true
  | .ok false =>
    match Root.lib fs r with
    | some p => libCheck p
    | none => .ok false

/-- `crate_has_non_trivial_code`: the group members are checked in order and
the first non-trivial one (or the first error) short-circuits. -/
def crate_has_non_trivial_code (fs : String → Bool)
    (binCheck libCheck : String → Except String Bool) :
    List Root → Except String Bool
  | [] => .ok false
  | r :: rs =>
    match has_non_trivial_code fs binCheck libCheck r with
    | .error e => .error e
    | .ok true => .ok true
    | .ok false => crate_has_non_trivial_code fs binCheck libCheck rs

theorem natCmp_eq_iff (a b : Nat) : natCmp a b = .eq ↔ a = b := by
  unfold natCmp
  split_ifs with h1 h2 <;> simp_all

theorem strCmp_eq_iff (a b : String) : strCmp a b = .eq ↔ a = b := by
  unfold strCmp
  split_ifs with h1 h2 <;> simp_all

theorem idCmp_eq_iff (a b : SemverId) : idCmp a b = .eq ↔ a = b := by
  cases a <;> cases b <;> simp [idCmp, natCmp_eq_iff, strCmp_eq_iff]

theorem listIdCmp_eq_iff (a b : List SemverId) :
    listIdCmp a b = .eq ↔ a = b := by
  induction a generalizing b with
  | nil => cases b <;> simp [listIdCmp]
  | cons x xs ih =>
    cases b with
    | nil => simp [listIdCmp]
    | cons y ys =>
      cases h : idCmp x y with
      | eq =>
        have hx : x = y := (idCmp_eq_iff x y).mp h
        subst hx
        simp [listIdCmp, h, ih]
      | lt =>
        have hx : x ≠ y := fun he => by
          simp [(idCmp_eq_iff x y).mpr he] at h
        simp [listIdCmp, h, hx]
      | gt =>
        have hx : x ≠ y := fun he => by
          simp [(idCmp_eq_iff x y).mpr he] at h
        simp [listIdCmp, h, hx]

theorem preCmp_eq_iff (a b : List SemverId) : preCmp a b = .eq ↔ a = b := by
  cases a <;> cases b <;> simp [preCmp, listIdCmp_eq_iff]

theorem buildCmp_eq_iff (a b : List SemverId) :
    buildCmp a b = .eq ↔ a = b := by
  cases a <;> cases b <;> simp [buildCmp, listIdCmp_eq_iff]

theorem versionCmp_eq_iff (a b : Version) : Version.cmp a b = .eq ↔ a = b := by
  obtain ⟨a1, a2, a3, a4, a5⟩ := a
  obtain ⟨b1, b2, b3, b4, b5⟩ := b
  simp only [Version.cmp, Version.mk.injEq]
  cases h1 : natCmp a1 b1 with
  | lt => have : a1 ≠ b1 := fun he => by simp [(natCmp_eq_iff a1 b1).mpr he] at h1
          simp [this]
  | gt => have : a1 ≠ b1 := fun he => by simp [(natCmp_eq_iff a1 b1).mpr he] at h1
          simp [this]
  | eq =>
    have e1 : a1 = b1 := (natCmp_eq_iff a1 b1).mp h1
    cases h2 : natCmp a2 b2 with
    | lt => have : a2 ≠ b2 := fun he => by simp [(natCmp_eq_iff a2 b2).mpr he] at h2
            simp [this]
    | gt => have : a2 ≠ b2 := fun he => by simp [(natCmp_eq_iff a2 b2).mpr he] at h2
            simp [this]
    | eq =>
      have e2 : a2 = b2 := (natCmp_eq_iff a2 b2).mp h2
      cases h3 : natCmp a3 b3 with
      | lt => have : a3 ≠ b3 := fun he => by simp [(natCmp_eq_iff a3 b3).mpr he] at h3
              simp [this]
      | gt => have : a3 ≠ b3 := fun he => by simp [(natCmp_eq_iff a3 b3).mpr he] at h3
              simp [this]
      | eq =>
        have e3 : a3 = b3 := (natCmp_eq_iff a3 b3).mp h3
        cases h4 : preCmp a4 b4 with
        | lt => have : a4 ≠ b4 := fun he => by simp [(preCmp_eq_iff a4 b4).mpr he] at h4
                simp [this]
        | gt => have : a4 ≠ b4 := fun he => by simp [(preCmp_eq_iff a4 b4).mpr he] at h4
                simp [this]
        | eq =>
          have e4 : a4 = b4 := (preCmp_eq_iff a4 b4).mp h4
          simp [e1, e2, e3, e4, buildCmp_eq_iff]

theorem packageCmp_eq_iff (a b : Package) : Package.cmp a b = .eq ↔ a = b := by
  obtain ⟨an, av⟩ := a
  obtain ⟨bn, bv⟩ := b
  simp only [Package.cmp, Package.mk.injEq]
  cases h1 : strCmp an bn with
  | lt => have : an ≠ bn := fun he => by simp [(strCmp_eq_iff an bn).mpr he] at h1
          simp [this]
  | gt => have : an ≠ bn := fun he => by simp [(strCmp_eq_iff an bn).mpr he] at h1
          simp [this]
  | eq =>
    have e1 : an = bn := (strCmp_eq_iff an bn).mp h1
    simp [e1, versionCmp_eq_iff]

/-- The root comparison used by the `BTreeSet` is equality of the `package`
field alone: two roots compare equal exactly when their declared names and
versions coincide, whatever their directories, `lib` or `bins` fields. -/
theorem rootCmp_eq_iff (a b : Root) :
    Root.cmp a b = .eq ↔ a.manifest.package = b.manifest.package := by
  simp [Root.cmp, Manifest.cmp, packageCmp_eq_iff]

/-- Claim C1 as stated: any two roots sharing a manifest name whose
manifests differ in at least one field (version, lib or bins) are kept as
two distinct members of the name's group, merging only fully identical
manifests. -/
def distinctUnlessIdenticalClaim : Prop :=
  ∀ r1 r2 : Root,
    r1.manifest.package.name = r2.manifest.package.name →
    r1.manifest ≠ r2.manifest →
    ∃ g, indexLookup (buildIndex [r1, r2]) r1.manifest.package.name = some g ∧
      g.length = 2 ∧ r1 ∈ g ∧ r2 ∈ g

/-- Concrete root for C1: name `pkga`, version 0.1.0, no lib, no bins. -/
def c1RootA : Root := ⟨"d1", ⟨⟨"pkga", ⟨0, 1, 0, [], []⟩⟩, none, none⟩⟩

/-- Concrete root for C1: same name and version as `c1RootA` but with a
declared (empty) bins list, so the manifests are not equal. -/
def c1RootB : Root := ⟨"d2", ⟨⟨"pkga", ⟨0, 1, 0, [], []⟩⟩, none, some []⟩⟩

/-- Concrete root for C1: same name as `c1RootA` but version 0.2.0. -/
def c1RootC : Root := ⟨"d3", ⟨⟨"pkga", ⟨0, 2, 0, [], []⟩⟩, none, none⟩⟩

/-- C1 fails on the code: the group's `BTreeSet` deduplicates by the `Root`
ordering, which compares only `(name, version)`, so the two roots `c1RootA`
and `c1RootB` — same name and version, different `bins` field, hence
non-equal manifests — collapse to a single member instead of staying
distinct. -/
theorem c1_counterexample : ¬ distinctUnlessIdenticalClaim := by
  intro h
  obtain ⟨g, hg, hlen, -, -⟩ := h c1RootA c1RootB rfl (by decide)
  have hval : indexLookup (buildIndex [c1RootA, c1RootB])
      c1RootA.manifest.package.name = some [c1RootA] := rfl
  obtain rfl : [c1RootA] = g := Option.some.inj (hval.symm.trans hg)
  simp at hlen

/-- C1 (amended): two roots sharing a manifest name are kept as two distinct
members of the same group when their manifest versions differ; when name
and version both coincide they are merged to a single member (the first
inserted root is kept), even if the lib or bins fields differ. -/
theorem c1_amended (r1 r2 : Root)
    (hname : r1.manifest.package.name = r2.manifest.package.name) :
    (r1.manifest.package.version ≠ r2.manifest.package.version →
      ∃ g, indexLookup (buildIndex [r1, r2]) r1.manifest.package.name = some g ∧
        g.length = 2 ∧ r1 ∈ g ∧ r2 ∈ g) ∧
    (r1.manifest.package.version = r2.manifest.package.version →
      indexLookup (buildIndex [r1, r2]) r1.manifest.package.name = some [r1]) := by
  obtain ⟨d1, ⟨⟨n1, v1⟩, l1, b1⟩⟩ := r1
  obtain ⟨d2, ⟨⟨n2, v2⟩, l2, b2⟩⟩ := r2
  replace hname : n1 = n2 := hname
  subst hname
  have hbi : buildIndex [⟨d1, ⟨⟨n1, v1⟩, l1, b1⟩⟩, ⟨d2, ⟨⟨n1, v2⟩, l2, b2⟩⟩] =
      [(n1, btreeInsert ⟨d2, ⟨⟨n1, v2⟩, l2, b2⟩⟩ [⟨d1, ⟨⟨n1, v1⟩, l1, b1⟩⟩])] := by
    simp [buildIndex, indexInsert, btreeInsert]
  constructor
  · intro hv
    replace hv : v1 ≠ v2 := hv
    cases hvc : Version.cmp v2 v1 with
    | eq => exact absurd ((versionCmp_eq_iff v2 v1).mp hvc).symm hv
    | lt =>
      refine ⟨[⟨d2, ⟨⟨n1, v2⟩, l2, b2⟩⟩, ⟨d1, ⟨⟨n1, v1⟩, l1, b1⟩⟩], ?_, by simp, by simp, by simp⟩
      rw [hbi]
      simp [btreeInsert, Root.cmp, Manifest.cmp, Package.cmp, strCmp, hvc, indexLookup]
    | gt =>
      refine ⟨[⟨d1, ⟨⟨n1, v1⟩, l1, b1⟩⟩, ⟨d2, ⟨⟨n1, v2⟩, l2, b2⟩⟩], ?_, by simp, by simp, by simp⟩
      rw [hbi]
      simp [btreeInsert, Root.cmp, Manifest.cmp, Package.cmp, strCmp, hvc, indexLookup]
  · intro hv
    replace hv : v1 = v2 := hv
    subst hv
    have hvc : Version.cmp v1 v1 = .eq := (versionCmp_eq_iff v1 v1).mpr rfl
    rw [hbi]
    simp [btreeInsert, Root.cmp, Manifest.cmp, Package.cmp, strCmp, hvc, indexLookup]

/-- C1 amended, witness: two concrete roots sharing the name `pkga` with
versions 0.1.0 and 0.2.0 stay distinct members of the group. -/
theorem c1_amended_witness :
    ∃ g, indexLookup (buildIndex [c1RootA, c1RootC]) "pkga" = some g ∧
      g.length = 2 ∧ c1RootA ∈ g ∧ c1RootC ∈ g :=
  (c1_amended c1RootA c1RootC rfl).1 (by decide)

/-- Concrete manifest for C2, with every optional field populated. -/
def c2Manifest : Manifest :=
  ⟨⟨"pkgb", ⟨1, 2, 3, [.num 4, .alpha "rc"], [.alpha "build5"]⟩⟩,
   some ⟨some "src/x.rs"⟩, some [⟨some "src/y.rs"⟩]⟩

/-- C2: two discovered roots whose manifests are equal in every field
collapse to a single group member — the first inserted root, whatever the
two directories are. -/
theorem c2_dedup (r1 r2 : Root) (h : r1.manifest = r2.manifest) :
    indexLookup (buildIndex [r1, r2]) r1.manifest.package.name = some [r1] := by
  obtain ⟨d1, m1⟩ := r1
  obtain ⟨d2, m2⟩ := r2
  replace h : m1 = m2 := h
  subst h
  have hcmp : Root.cmp ⟨d2, m1⟩ ⟨d1, m1⟩ = .eq := (rootCmp_eq_iff _ _).mpr rfl
  simp [buildIndex, indexInsert, btreeInsert, indexLookup, hcmp]

/-- C2, witness: two concrete roots at the directories `da` and `db` with
the identical manifest `c2Manifest` yield the one-member group `[⟨da, _⟩]`. -/
theorem c2_dedup_witness :
    indexLookup (buildIndex [⟨"da", c2Manifest⟩, ⟨"db", c2Manifest⟩]) "pkgb" =
      some [⟨"da", c2Manifest⟩] :=
  c2_dedup ⟨"da", c2Manifest⟩ ⟨"db", c2Manifest⟩ rfl

theorem defaultBins_exists (fs : String → Bool) (r : Root) (p : String)
    (h : p ∈ defaultBins fs r) : fs p = true := by
  unfold defaultBins at h
  by_cases hd : fs (pathJoin (pathJoin r.root "src") "main.rs") = true
  · simp only [hd, if_true, List.mem_singleton] at h
    exact h ▸ hd
  · simp [hd] at h

theorem defaultLib_exists (fs : String → Bool) (r : Root) (p : String)
    (h : defaultLib fs r = some p) : fs p = true := by
  unfold defaultLib at h
  by_cases hd : fs (pathJoin (pathJoin r.root "src") "lib.rs") = true
  · simp only [hd, if_true, Option.some.injEq] at h
    exact h ▸ hd
  · simp [hd] at h

/-- Claim C7 as stated: every path produced by the entry-point resolver —
binary or library, declared or fallback — exists on disk. -/
def resolverExistsClaim : Prop :=
  ∀ (fs : String → Bool) (r : Root),
    (∀ p ∈ Root.bins fs r, fs p = true) ∧
    (∀ p, Root.lib fs r = some p → fs p = true)

/-- Concrete root for C7: a manifest declaring one binary whose path does
not exist on the (empty) filesystem. -/
def c7Root : Root := ⟨"dd", ⟨⟨"pkgd", ⟨0, 1, 0, [], []⟩⟩, none, some [⟨some "nope.rs"⟩]⟩⟩

/-- C7 fails on the code: `Root::bins` resolves entries of a declared
non-empty `bins` list by joining their paths without any existence check,
so with an empty filesystem the declared binary `dd/nope.rs` is still
returned even though it does not exist. -/
theorem c7_counterexample : ¬ resolverExistsClaim := by
  intro h
  have hmem : pathJoin "dd" "nope.rs" ∈ Root.bins (fun _ => false) c7Root := by
    simp [Root.bins, c7Root]
  have := (h (fun _ => false) c7Root).1 (pathJoin "dd" "nope.rs") hmem
  simp at this

/-- C7 (amended): every library entry point the resolver returns exists on
disk (declared paths are existence-checked, with fallback to `src/lib.rs`
when absent), and binary entry points are existence-checked only in the
conventional-fallback case (no declared bins, or an empty list); declared
binary entries are joined without an existence check. -/
theorem c7_amended (fs : String → Bool) (r : Root) :
    (∀ p, Root.lib fs r = some p → fs p = true) ∧
    ((r.manifest.bins = none ∨ r.manifest.bins = some []) →
      ∀ p ∈ Root.bins fs r, fs p = true) := by
  obtain ⟨dir, ⟨pkg, ml, mb⟩⟩ := r
  constructor
  · intro p hp
    rcases ml with _ | ⟨_ | q⟩
    · exact defaultLib_exists _ _ _ hp
    · exact defaultLib_exists _ _ _ hp
    · simp only [Root.lib] at hp
      by_cases hq : fs (pathJoin dir q) = true
      · simp only [hq, if_true, Option.some.injEq] at hp
        exact hp ▸ hq
      · simp only [hq, if_false, Bool.false_eq_true, reduceIte] at hp
        exact defaultLib_exists _ _ _ hp
  · intro hb p hp
    rcases hb with hb | hb
    · replace hb : mb = none := hb
      subst hb
      exact defaultBins_exists _ _ _ hp
    · replace hb : mb = some [] := hb
      subst hb
      exact defaultBins_exists _ _ _ hp

/-- Concrete root for the C7 witness: no declared lib or bins, with
`dd/src/lib.rs` present on the filesystem. -/
def c7RootD : Root := ⟨"dd", ⟨⟨"pkgd", ⟨0, 1, 0, [], []⟩⟩, none, none⟩⟩

/-- Filesystem for the C7 witness: exactly `dd/src/lib.rs` exists. -/
def c7fs : String → Bool := fun p => p == "dd/src/lib.rs"

/-- C7 amended, witness: the resolved fallback library of `c7RootD` exists
on the filesystem `c7fs`. -/
theorem c7_amended_witness :
    Root.lib c7fs c7RootD = some "dd/src/lib.rs" ∧ c7fs "dd/src/lib.rs" = true :=
  ⟨by decide, (c7_amended c7fs c7RootD).1 "dd/src/lib.rs" (by decide)⟩

theorem checkBins_pure (bb : String → Bool) (l : List String) :
    checkBins (fun p => .ok (bb p)) l = .ok (l.any bb) := by
  induction l with
  | nil => rfl
  | cons p ps ih => cases hb : bb p <;> simp [checkBins, hb, ih]

theorem has_non_trivial_pure (fs : String → Bool) (bb lb : String → Bool)
    (r : Root) :
    has_non_trivial_code fs (fun p => .ok (bb p)) (fun p => .ok (lb p)) r =
      .ok (((Root.bins fs r).any bb) || ((Root.lib fs r).elim false lb)) := by
  unfold has_non_trivial_code
  rw [checkBins_pure]
  cases hany : (Root.bins fs r).any bb
  · cases hl : Root.lib fs r <;> simp
  · simp

theorem has_non_trivial_sc (fs : String → Bool)
    (binCheck libCheck : String → Except String Bool) (r : Root)
    (p : String) (ps : List String) (hb : Root.bins fs r = p :: ps)
    (hc : binCheck p = .ok true) :
    has_non_trivial_code fs binCheck libCheck r = .ok true := by
  unfold has_non_trivial_code
  rw [hb]
  simp [checkBins, hc]

theorem crate_pure (fs : String → Bool) (bb lb : String → Bool)
    (roots : List Root) :
    crate_has_non_trivial_code fs (fun p => .ok (bb p)) (fun p => .ok (lb p)) roots =
      .ok (roots.any (fun r =>
        ((Root.bins fs r).any bb) || ((Root.lib fs r).elim false lb))) := by
  induction roots with
  | nil => rfl
  | cons r rs ih =>
    rw [crate_has_non_trivial_code, has_non_trivial_pure]
    cases hr : ((Root.bins fs r).any bb) || ((Root.lib fs r).elim false lb)
    · simp [ih, hr]
    · simp [hr]

theorem crate_sc (fs : String → Bool)
    (binCheck libCheck : String → Except String Bool) (r : Root)
    (rs : List Root) (h : has_non_trivial_code fs binCheck libCheck r = .ok true) :
    crate_has_non_trivial_code fs binCheck libCheck (r :: rs) = .ok true := by
  rw [crate_has_non_trivial_code, h]

/-- C8: when every per-file check succeeds, a root is non-trivial exactly
when some resolved binary is non-trivial or the resolved library (if any)
is non-trivial, and a package is non-trivial exactly when some group member
root is; moreover binaries are checked before the library and evaluation
short-circuits — a non-trivial first binary, or a non-trivial first group
member, fixes the result `.ok true` whatever the remaining (possibly even
erroring) checks would say. -/
theorem c8_root_crate_characterisation :
    (∀ (fs : String → Bool) (bb lb : String → Bool) (r : Root),
      has_non_trivial_code fs (fun p => .ok (bb p)) (fun p => .ok (lb p)) r =
        .ok (((Root.bins fs r).any bb) || ((Root.lib fs r).elim false lb))) ∧
    (∀ (fs : String → Bool) (binCheck libCheck : String → Except String Bool)
      (r : Root) (p : String) (ps : List String),
      Root.bins fs r = p :: ps → binCheck p = .ok true →
      has_non_trivial_code fs binCheck libCheck r = .ok true) ∧
    (∀ (fs : String → Bool) (bb lb : String → Bool) (roots : List Root),
      crate_has_non_trivial_code fs (fun p => .ok (bb p)) (fun p => .ok (lb p)) roots =
        .ok (roots.any (fun r =>
          ((Root.bins fs r).any bb) || ((Root.lib fs r).elim false lb)))) ∧
    (∀ (fs : String → Bool) (binCheck libCheck : String → Except String Bool)
      (r : Root) (rs : List Root),
      has_non_trivial_code fs binCheck libCheck r = .ok true →
      crate_has_non_trivial_code fs binCheck libCheck (r :: rs) = .ok true) :=
  ⟨has_non_trivial_pure, has_non_trivial_sc, crate_pure, crate_sc⟩

/-- Concrete root for the C8 witness: one declared binary `de/b.rs`. -/
def c8Root : Root := ⟨"de", ⟨⟨"pkge", ⟨0, 1, 0, [], []⟩⟩, none, some [⟨some "b.rs"⟩]⟩⟩

/-- Binary classifier for the C8 witness: everything is non-trivial. -/
def c8binCheck : String → Except String Bool := fun _ => .ok true

/-- Library classifier for the C8 witness: it always errors, so a result of
`.ok true` shows the library check was never consulted. -/
def c8libCheck : String → Except String Bool := fun _ => .error "io error"

/-- C8, witness: with the non-trivial first binary of `c8Root`, both the
root-level and the crate-level classification short-circuit to `.ok true`
without touching the erroring library classifier. -/
theorem c8_witness :
    has_non_trivial_code (fun _ => false) c8binCheck c8libCheck c8Root = .ok true ∧
    crate_has_non_trivial_code (fun _ => false) c8binCheck c8libCheck [c8Root] = .ok true := by
  have h2 := c8_root_crate_characterisation.2.1 (fun _ => false) c8binCheck c8libCheck
    c8Root (pathJoin "de" "b.rs") [] rfl rfl
  exact ⟨h2, c8_root_crate_characterisation.2.2.2 (fun _ => false) c8binCheck c8libCheck
    c8Root [] h2⟩

theorem fold_ok_error_aux (post : List (Except String Root)) (e : String) :
    ∀ (pre : List (Except String Root)) (acc : List (String × List Root)),
    (∀ x ∈ pre, ∃ r, x = .ok r) →
    fold_ok acc (pre ++ .error e :: post) = .error e := by
  intro pre
  induction pre with
  | nil => intro acc _; rfl
  | cons x xs ih =>
    intro acc h
    obtain ⟨r, rfl⟩ := h x (by simp)
    simpa [fold_ok] using ih (indexInsert acc r) (fun y hy => h y (by simp [hy]))

/-- C9: if any candidate in the discovery stream fails to load (I/O error,
malformed manifest, missing fields), the whole scan-path discovery returns
that error: no candidate is skipped and no partial index is produced. -/
theorem c9_error_aborts (pre post : List (Except String Root)) (e : String)
    (h : ∀ x ∈ pre, ∃ r, x = .ok r) :
    discover (pre ++ .error e :: post) = .error e :=
  fold_ok_error_aux post e pre [] h

/-- Concrete root for the C9 witness. -/
def c9Root : Root := ⟨"df", ⟨⟨"pkgf", ⟨0, 0, 1, [], []⟩⟩, none, none⟩⟩

/-- C9, witness: a failing candidate between two good ones aborts the whole
scan with its error. -/
theorem c9_error_aborts_witness :
    discover [.ok c9Root, .error "bad manifest", .ok c9Root] = .error "bad manifest" :=
  c9_error_aborts [.ok c9Root] [.ok c9Root] "bad manifest"
    (by intro x hx; simp at hx; exact ⟨c9Root, hx⟩)

/-- A function item the binary loop passes over: named `main`, with a body
of at most 2 newlines whose text contains `println!`. -/
def fnGood (f : Node) : Prop :=
  ∃ nm b, fnNameNode f = some nm ∧ nm.text = "main" ∧ fnBodyNode f = some b ∧
    newlineCount b.text ≤ 2 ∧ containsSubstr b.text "println!" = true

/-- A function item with a name, and a body whenever that name is `main`:
the shape on which the binary loop cannot raise a structural error. -/
def fnWf (f : Node) : Prop :=
  ∃ nm, fnNameNode f = some nm ∧ (nm.text = "main" → ∃ b, fnBodyNode f = some b)

/-- A function item on which the binary loop returns non-trivial: its name
is not `main`, or its `main` body has more than 2 newlines or lacks the
`println!` substring. -/
def fnBad (f : Node) : Prop :=
  ∃ nm, fnNameNode f = some nm ∧
    (nm.text ≠ "main" ∨ ∃ b, fnBodyNode f = some b ∧
      (2 < newlineCount b.text ∨ containsSubstr b.text "println!" = false))

theorem binLoop_cons_good (f : Node) (fs : List Node) (h : fnGood f) :
    binLoop (f :: fs) = binLoop fs := by
  obtain ⟨nm, b, hnm, hmain, hb, hnl, hcs⟩ := h
  simp [binLoop, hnm, hmain, hb, Nat.not_lt.mpr hnl, hcs]

theorem binLoop_cons_nonmain (f : Node) (fs : List Node) (nm : Node)
    (hnm : fnNameNode f = some nm) (h : nm.text ≠ "main") :
    binLoop (f :: fs) = .ok true := by
  simp [binLoop, hnm, h]

theorem binLoop_good_of_singleton (f : Node) (h : binLoop [f] = .ok false) :
    fnGood f := by
  unfold binLoop at h
  cases hnm : fnNameNode f with
  | none => simp [hnm] at h
  | some nm =>
    simp only [hnm] at h
    by_cases hmain : nm.text = "main"
    · rw [if_neg (fun hne => hne hmain)] at h
      cases hb : fnBodyNode f with
      | none => simp [hb] at h
      | some b =>
        simp only [hb] at h
        by_cases hnl : 2 < newlineCount b.text
        · simp [hnl] at h
        · rw [if_neg hnl] at h
          by_cases hcs : containsSubstr b.text "println!" = true
          · exact ⟨nm, b, hnm, hmain, hb, Nat.not_lt.mp hnl, hcs⟩
          · have hf : containsSubstr b.text "println!" = false := by
              cases h2 : containsSubstr b.text "println!"
              · rfl
              · exact absurd h2 hcs
            simp [hf] at h
    · simp [hmain] at h

theorem binLoop_true_of_bad (fns : List Node) :
    (∀ g ∈ fns, fnWf g) → ∀ f, f ∈ fns → fnBad f → binLoop fns = .ok true := by
  induction fns with
  | nil => intro _ f hf; cases hf
  | cons g gs ih =>
    intro hwf f hf hbad
    obtain ⟨nm, hnm, hcond⟩ := hwf g (by simp)
    by_cases hmain : nm.text = "main"
    · obtain ⟨b, hb⟩ := hcond hmain
      by_cases hnl : 2 < newlineCount b.text
      · simp [binLoop, hnm, hmain, hb, hnl]
      · by_cases hcs : containsSubstr b.text "println!" = true
        · rw [binLoop_cons_good g gs ⟨nm, b, hnm, hmain, hb, Nat.not_lt.mp hnl, hcs⟩]
          rcases List.mem_cons.mp hf with rfl | hf2
          · obtain ⟨nm2, hnm2, hbad2⟩ := hbad
            rw [hnm] at hnm2
            obtain rfl : nm = nm2 := Option.some.inj hnm2
            rcases hbad2 with hne | ⟨b2, hb2, hb2bad⟩
            · exact absurd hmain hne
            · rw [hb] at hb2
              obtain rfl : b = b2 := Option.some.inj hb2
              rcases hb2bad with hx | hx
              · exact absurd hx hnl
              · rw [hcs] at hx
                cases hx
          · exact ih (fun x hx => hwf x (by simp [hx])) f hf2 hbad
        · have hfcs : containsSubstr b.text "println!" = false := by
            cases h2 : containsSubstr b.text "println!"
            · rfl
            · exact absurd h2 hcs
          simp [binLoop, hnm, hmain, hb, hnl, hfcs]
    · simp [binLoop, hnm, hmain]

/-- C5: the file is non-trivial whenever some top-level function named
`main` has a body text with strictly more than 2 newline characters, or a
body text that lacks the literal substring `println!` — a textual, not
structural, check (other top-level functions are assumed well-formed so the
loop cannot abort with a structural error first). -/
theorem c5_main_body_heuristic (root f nm b : Node)
    (hwf : ∀ g ∈ topFns root, fnWf g)
    (hf : f ∈ topFns root)
    (hnm : fnNameNode f = some nm) (hmain : nm.text = "main")
    (hb : fnBodyNode f = some b)
    (hbad : 2 < newlineCount b.text ∨ containsSubstr b.text "println!" = false) :
    is_bin_non_trivial root = .ok true :=
  binLoop_true_of_bad (topFns root) hwf f hf ⟨nm, hnm, Or.inr ⟨b, hb, hbad⟩⟩

/-- Concrete nodes for the C5 witness: a `main` whose body holds only two
`println!` calls but spans 3 newlines. -/
def c5Nm : Node := .mk "identifier" "main" [] []

/-- The C5 witness body: 3 newlines, only print-macro calls. -/
def c5Body : Node :=
  .mk "block" "\x7b\n    println!(\"a\");\n    println!(\"b\");\n\x7d" [] []

/-- The C5 witness `main` function item. -/
def c5MainFn : Node := .mk "function_item" "" [("name", c5Nm), ("body", c5Body)] []

/-- The C5 witness file: a lone `main` with a 3-newline print-only body. -/
def c5Root : Node := .mk "source_file" "" [] [c5MainFn]

/-- C5, witness: a `main` body of 3 newlines is non-trivial even though it
contains only `println!` calls. -/
theorem c5_main_body_heuristic_witness : is_bin_non_trivial c5Root = .ok true := by
  apply c5_main_body_heuristic c5Root c5MainFn c5Nm c5Body
  · intro g hg
    rw [show topFns c5Root = [c5MainFn] from rfl] at hg
    obtain rfl := List.mem_singleton.mp hg
    exact ⟨c5Nm, rfl, fun _ => ⟨c5Body, rfl⟩⟩
  · rw [show topFns c5Root = [c5MainFn] from rfl]
    exact List.mem_singleton.mpr rfl
  · rfl
  · rfl
  · rfl
  · exact Or.inl (by decide)

/-- The statement children of a body block: its children other than the
two brace tokens. -/
def bodyStmts (body : Node) : List Node :=
  body.children.filter (fun n => !(n.kind == "\x7b") && !(n.kind == "\x7d"))

/-- Every character of the string is a blank, newline or tab. -/
def allWs (s : String) : Bool :=
  s.data.all (fun c => c == ' ' || c == '\n' || c == '\t')

/-- Formalisation of the body shape described by C3: the body block holds
exactly one statement, an invocation of the console-print macro (written
`println!…`) with no newline inside the statement's text, and the body text
is that statement's text wrapped in braces and whitespace. -/
def mainBodySinglePrintln (body stmt : Node) (w1 w2 : String) : Prop :=
  bodyStmts body = [stmt] ∧
  stmt.kind = "expression_statement" ∧
  (∃ rest, stmt.text = "println!" ++ rest) ∧
  newlineCount stmt.text = 0 ∧
  body.text = "\x7b" ++ w1 ++ stmt.text ++ w2 ++ "\x7d" ∧
  allWs w1 = true ∧ allWs w2 = true

/-- Claim C3 as stated: a file whose tree has a lone top-level `main`
containing exactly one console-print call with no embedded newlines is
always classified trivial. -/
def binarySinglePrintlnClaim : Prop :=
  ∀ (root mainFn nm body stmt : Node) (w1 w2 : String),
    topFns root = [mainFn] →
    fnNameNode mainFn = some nm → nm.text = "main" →
    fnBodyNode mainFn = some body →
    mainBodySinglePrintln body stmt w1 w2 →
    is_bin_non_trivial root = .ok false

/-- The C3 counterexample statement node: a one-line `println!` call. -/
def c3Stmt : Node := .mk "expression_statement" ("println!" ++ "(\"hi\");") [] []

/-- Whitespace before the statement in the C3 counterexample body. -/
def c3W1 : String := "\n\n\n    "

/-- Whitespace after the statement in the C3 counterexample body. -/
def c3W2 : String := "\n\n\n"

/-- The C3 counterexample body: a single newline-free `println!` statement
surrounded by blank lines, 7 newlines in total. -/
def c3Body : Node :=
  .mk "block" ("\x7b" ++ c3W1 ++ ("println!" ++ "(\"hi\");") ++ c3W2 ++ "\x7d") []
    [.mk "\x7b" "\x7b" [] [], c3Stmt, .mk "\x7d" "\x7d" [] []]

/-- The C3 counterexample `main` name node. -/
def c3Nm : Node := .mk "identifier" "main" [] []

/-- The C3 counterexample `main` function item. -/
def c3MainFn : Node := .mk "function_item" "" [("name", c3Nm), ("body", c3Body)] []

/-- The C3 counterexample file: a lone `main` whose single `println!`
statement is surrounded by blank lines. -/
def c3Root : Node := .mk "source_file" "" [] [c3MainFn]

/-- C3 fails on the code: the heuristic counts every newline of the body
text, so a `main` whose sole, newline-free `println!` statement is merely
surrounded by blank lines (7 body newlines) is classified non-trivial. -/
theorem c3_counterexample : ¬ binarySinglePrintlnClaim := by
  intro h
  have hc := h c3Root c3MainFn c3Nm c3Body c3Stmt c3W1 c3W2 rfl rfl rfl rfl
    ⟨rfl, rfl, ⟨"(\"hi\");", rfl⟩, by decide, rfl, by decide, by decide⟩
  rw [show is_bin_non_trivial c3Root = .ok true from rfl] at hc
  exact absurd hc (by simp)

/-- C3 (amended): a file whose tree has a lone top-level `main` containing
exactly one console-print call with no embedded newlines, and whose body
text holds at most 2 newline characters in total, is classified trivial. -/
theorem c3_amended (root mainFn nm body stmt : Node) (w1 w2 : String)
    (h1 : topFns root = [mainFn])
    (h2 : fnNameNode mainFn = some nm) (h3 : nm.text = "main")
    (h4 : fnBodyNode mainFn = some body)
    (h5 : mainBodySinglePrintln body stmt w1 w2)
    (h6 : newlineCount body.text ≤ 2) :
    is_bin_non_trivial root = .ok false := by
  obtain ⟨-, -, ⟨rest, hstmt⟩, -, hbody, -, -⟩ := h5
  have hcs : containsSubstr body.text "println!" = true := by
    apply decide_eq_true
    rw [hbody, hstmt]
    refine ⟨("\x7b" ++ w1).data, (rest ++ (w2 ++ "\x7d")).data, ?_⟩
    simp [String.data_append, List.append_assoc]
  unfold is_bin_non_trivial
  rw [h1, binLoop_cons_good mainFn [] ⟨nm, body, h2, h3, h4, h6, hcs⟩]
  rfl

/-- The C3 witness body: the same single statement formatted conventionally
with 2 newlines. -/
def c3GoodBody : Node :=
  .mk "block" ("\x7b" ++ "\n    " ++ ("println!" ++ "(\"hi\");") ++ "\n" ++ "\x7d") []
    [.mk "\x7b" "\x7b" [] [], c3Stmt, .mk "\x7d" "\x7d" [] []]

/-- The C3 witness `main` function item. -/
def c3GoodMainFn : Node := .mk "function_item" "" [("name", c3Nm), ("body", c3GoodBody)] []

/-- The C3 witness file. -/
def c3GoodRoot : Node := .mk "source_file" "" [] [c3GoodMainFn]

/-- C3 amended, witness: the conventionally formatted lone trivial `main`
is classified trivial. -/
theorem c3_amended_witness : is_bin_non_trivial c3GoodRoot = .ok false :=
  c3_amended c3GoodRoot c3GoodMainFn c3Nm c3GoodBody c3Stmt "\n    " "\n"
    rfl rfl rfl rfl
    ⟨rfl, rfl, ⟨"(\"hi\");", rfl⟩, by decide, rfl, by decide, by decide⟩
    (by decide)

/-- Claim C4 as stated: starting from any file whose tree is a lone trivial
`main`, a tree with one additional top-level function — of any name, placed
before or after `main` — is classified non-trivial. -/
def secondFnClaim : Prop :=
  ∀ (r0 r1 mainFn g : Node),
    topFns r0 = [mainFn] →
    is_bin_non_trivial r0 = .ok false →
    (topFns r1 = [mainFn, g] ∨ topFns r1 = [g, mainFn]) →
    is_bin_non_trivial r1 = .ok true

/-- The C4 `main` name node. -/
def c4Nm : Node := .mk "identifier" "main" [] []

/-- The C4 trivial `main` body. -/
def c4Body : Node := .mk "block" "\x7b\n    println!(\"hi\");\n\x7d" [] []

/-- The C4 trivial `main` function item. -/
def c4MainFn : Node := .mk "function_item" "" [("name", c4Nm), ("body", c4Body)] []

/-- The C4 base file: a lone trivial `main`. -/
def c4Root0 : Node := .mk "source_file" "" [] [c4MainFn]

/-- The C4 counterexample's second function: another trivial function also
named `main` (tree-sitter parses duplicate definitions without complaint —
the tool never performs semantic analysis). -/
def c4Main2 : Node :=
  .mk "function_item" ""
    [("name", .mk "identifier" "main" [] []),
     ("body", .mk "block" "\x7b\n    println!(\"ho\");\n\x7d" [] [])] []

/-- The C4 counterexample file: two trivial functions both named `main`. -/
def c4Root1 : Node := .mk "source_file" "" [] [c4MainFn, c4Main2]

/-- C4 fails on the code: only functions whose name differs from `main`
trigger the other-function rule, so adding a second top-level function that
is itself named `main` with a trivial body leaves the file classified
trivial. -/
theorem c4_counterexample : ¬ secondFnClaim := by
  intro h
  have hc := h c4Root0 c4Root1 c4MainFn c4Main2 rfl rfl (Or.inl rfl)
  rw [show is_bin_non_trivial c4Root1 = .ok false from rfl] at hc
  exact absurd hc (by simp)

/-- C4 (amended): starting from any file whose tree is a lone trivial
`main`, a tree with one additional top-level function whose name differs
from `main` — placed before or after `main` — is classified non-trivial. -/
theorem c4_amended (r0 r1 mainFn g nm2 : Node)
    (h0 : topFns r0 = [mainFn])
    (ht : is_bin_non_trivial r0 = .ok false)
    (h1 : topFns r1 = [mainFn, g] ∨ topFns r1 = [g, mainFn])
    (hg : fnNameNode g = some nm2) (hgn : nm2.text ≠ "main") :
    is_bin_non_trivial r1 = .ok true := by
  have hgood : fnGood mainFn := by
    apply binLoop_good_of_singleton
    unfold is_bin_non_trivial at ht
    rw [h0] at ht
    exact ht
  rcases h1 with h1 | h1
  · unfold is_bin_non_trivial
    rw [h1, binLoop_cons_good mainFn [g] hgood]
    exact binLoop_cons_nonmain g [] nm2 hg hgn
  · unfold is_bin_non_trivial
    rw [h1]
    exact binLoop_cons_nonmain g [mainFn] nm2 hg hgn

/-- The C4 witness helper function's name node. -/
def c4HelperNm : Node := .mk "identifier" "helper" [] []

/-- The C4 witness helper function item. -/
def c4Helper : Node :=
  .mk "function_item" "" [("name", c4HelperNm), ("body", .mk "block" "\x7b\x7d" [] [])] []

/-- The C4 witness file: the trivial `main` plus `fn helper`. -/
def c4Root2 : Node := .mk "source_file" "" [] [c4MainFn, c4Helper]

/-- C4 amended, witness: adding `fn helper` after the trivial `main` makes
the file non-trivial. -/
theorem c4_amended_witness : is_bin_non_trivial c4Root2 = .ok true :=
  c4_amended c4Root0 c4Root2 c4MainFn c4Helper c4HelperNm rfl rfl
    (Or.inl rfl) rfl (by decide)

theorem find?_eq_head?_filter (p : Node → Bool) (l : List Node) :
    l.find? p = (l.filter p).head? := by
  induction l with
  | nil => rfl
  | cons a t ih =>
    by_cases h : p a = true
    · rw [List.find?_cons_of_pos _ h, List.filter_cons_of_pos h]
      rfl
    · rw [List.find?_cons_of_neg _ h, List.filter_cons_of_neg h, ih]

theorem eq_singleton_of_length_le_one {α : Type} (l : List α) (a : α)
    (hlen : l.length ≤ 1) (ha : a ∈ l) : l = [a] := by
  cases l with
  | nil => cases ha
  | cons b t =>
    cases t with
    | nil =>
      obtain rfl := List.mem_singleton.mp ha
      rfl
    | cons c u =>
      simp only [List.length_cons] at hlen
      omega

/-- C6: the library check classifies a file non-trivial exactly when some
direct child of the root whose kind is in `libKinds` (function, const,
enum, foreign-mod, mod, struct, static, trait, type or use) carries a
visibility-modifier child whose text is exactly `pub`; items with no
modifier, or with a restricted one such as `pub(crate)` (whose node text is
not the bare keyword), never qualify.  The hypothesis — an item has at most
one visibility-modifier child — holds of every tree the grammar produces. -/
theorem c6_lib_pub_iff (root : Node)
    (huniq : ∀ item ∈ root.children,
      (item.children.filter (fun c => c.kind == "visibility_modifier")).length ≤ 1) :
    is_lib_non_trivial root = true ↔
      ∃ item ∈ root.children, item.kind ∈ libKinds ∧
        ∃ v ∈ item.children, v.kind = "visibility_modifier" ∧ v.text = "pub" := by
  unfold is_lib_non_trivial
  rw [List.any_eq_true]
  constructor
  · rintro ⟨item, hmem, hpub⟩
    rw [List.mem_filter] at hmem
    obtain ⟨hmem, hkind⟩ := hmem
    unfold hasPubVis at hpub
    cases hv : visFirst item with
    | none => rw [hv] at hpub; cases hpub
    | some v =>
      rw [hv] at hpub
      refine ⟨item, hmem, List.elem_iff.mp hkind, v,
        List.mem_of_find?_eq_some hv, ?_, ?_⟩
      · have := List.find?_some hv
        exact eq_of_beq this
      · exact eq_of_beq hpub
  · rintro ⟨item, hmem, hkind, v, hv, hvk, hvt⟩
    have hvin : v ∈ item.children.filter (fun c => c.kind == "visibility_modifier") :=
      List.mem_filter.mpr ⟨hv, by simp [hvk]⟩
    have hsing := eq_singleton_of_length_le_one _ v (huniq item hmem) hvin
    have hvf : visFirst item = some v := by
      rw [visFirst, find?_eq_head?_filter, hsing]
      rfl
    refine ⟨item, List.mem_filter.mpr ⟨hmem, List.elem_iff.mpr hkind⟩, ?_⟩
    simp [hasPubVis, hvf, hvt]

/-- The C6 witness visibility node. -/
def c6Vis : Node := .mk "visibility_modifier" "pub" [] []

/-- The C6 witness public struct item. -/
def c6Struct : Node := .mk "struct_item" "pub struct S;" [] [c6Vis, .mk "identifier" "S" [] []]

/-- The C6 witness private struct item (no visibility modifier). -/
def c6Hidden : Node := .mk "struct_item" "struct H;" [] [.mk "identifier" "H" [] []]

/-- The C6 witness library file: one private and one public struct. -/
def c6Root : Node := .mk "source_file" "" [] [c6Hidden, c6Struct]

/-- C6, witness: the file with a top-level `pub struct` is non-trivial. -/
theorem c6_lib_pub_iff_witness : is_lib_non_trivial c6Root = true := by
  have huniq : ∀ item ∈ c6Root.children,
      (item.children.filter (fun c => c.kind == "visibility_modifier")).length ≤ 1 := by
    intro item h
    rw [show c6Root.children = [c6Hidden, c6Struct] from rfl] at h
    rcases List.mem_cons.mp h with rfl | h2
    · decide
    · obtain rfl := List.mem_singleton.mp h2
      decide
  exact (c6_lib_pub_iff c6Root huniq).mpr
    ⟨c6Struct, by rw [show c6Root.children = [c6Hidden, c6Struct] from rfl]; simp,
     by decide, c6Vis,
     by rw [show c6Struct.children = [c6Vis, .mk "identifier" "S" [] []] from rfl]; simp,
     rfl, rfl⟩

/-- The top-level signature the library check reads from an item: its kind
and the text of its first visibility-modifier child, if any. -/
def itemSig (n : Node) : String × Option String :=
  (n.kind, (visFirst n).map Node.text)

/-- The per-signature test corresponding to `hasPubVis`. -/
def sigPub : Option String → Bool
  | some t => t == "pub"
  | none => false

theorem lib_sig_aux (l : List Node) :
    (l.filter (fun n => libKinds.contains n.kind)).any hasPubVis =
      ((l.map itemSig).filter (fun s => libKinds.contains s.fst)).any
        (fun s => sigPub s.snd) := by
  induction l with
  | nil => rfl
  | cons a t ih =>
    by_cases hk : libKinds.contains a.kind = true
    · simp only [List.map_cons, List.filter_cons, itemSig, hk, if_true,
        List.any_cons, ih]
      congr 1
      cases hv : visFirst a <;> simp [hasPubVis, sigPub, hv]
    · simp only [Bool.not_eq_true] at hk
      simp only [List.map_cons, List.filter_cons, itemSig, hk,
        Bool.false_eq_true, if_false, ih]

/-- `is_lib_non_trivial` factors through the top-level signatures: it is a
function of the direct children's `(kind, first-visibility-text)` pairs
alone. -/
theorem lib_factors_through_sigs (root : Node) :
    is_lib_non_trivial root =
      ((root.children.map itemSig).filter (fun s => libKinds.contains s.fst)).any
        (fun s => sigPub s.snd) :=
  lib_sig_aux root.children

/-- C10: the library check inspects only the direct children of the root —
two trees whose top-level items agree pointwise in kind and in the text of
their first visibility modifier are classified identically, whatever is
nested inside the items' bodies, so a `pub` item buried inside a module
never by itself changes the verdict. -/
theorem c10_shallow (t1 t2 : Node)
    (h : t1.children.map itemSig = t2.children.map itemSig) :
    is_lib_non_trivial t1 = is_lib_non_trivial t2 := by
  rw [lib_factors_through_sigs, lib_factors_through_sigs, h]

/-- A deeply nested public struct for the C10 witness. -/
def c10PubStruct : Node :=
  .mk "struct_item" "pub struct S;" [] [.mk "visibility_modifier" "pub" [] []]

/-- The C10 witness file: a non-`pub` module whose body contains a `pub`
struct. -/
def c10ModFull : Node :=
  .mk "source_file" "" []
    [.mk "mod_item" "" []
      [.mk "identifier" "m" [] [], .mk "declaration_list" "" [] [c10PubStruct]]]

/-- The C10 comparison file: the same module with an empty body. -/
def c10ModEmpty : Node :=
  .mk "source_file" "" []
    [.mk "mod_item" "" []
      [.mk "identifier" "m" [] [], .mk "declaration_list" "" [] []]]

/-- C10, witness: the module hiding a `pub struct` classifies exactly like
the empty module — trivial. -/
theorem c10_shallow_witness :
    is_lib_non_trivial c10ModFull = is_lib_non_trivial c10ModEmpty ∧
    is_lib_non_trivial c10ModEmpty = false :=
  ⟨c10_shallow c10ModFull c10ModEmpty rfl, rfl⟩

end Triviality
